import Mathlib

/-!
Verification of the crawl-and-change-detection engine of the
FK_Web_Scraping_Project repository (`crawler/utils.py`, `crawler/db.py`,
`crawler/crawler.py`) against its natural-language specification.

Python records (`dict`s) are embedded as association lists of string keys
to `PyVal` values; Python `float` values (IEEE binary64) are embedded in
`ℚ`, which contains every binary64 value exactly — the development only
uses that `str`/equality of floats are deterministic functions of the
value, which holds for any faithful rendering.  MongoDB collections are
embedded as in-memory lists with the exact operator semantics the code
invokes (`find_one`, `update_one` with `$set`/`upsert`, `insert_one`,
`update_many`).  Exception-based control flow is embedded with `Except`,
and the async pipeline of `run()` (an `asyncio.gather` over the task list,
results in task-submission order) as a fold in submission order.
-/

/-- A Python runtime value as it occurs in the crawler's book dictionaries:
`None`, `str`, `int`, or `float` (binary64 embedded exactly in `ℚ`). -/
inductive PyVal where
  | none : PyVal
  | str (s : String) : PyVal
  | int (n : Int) : PyVal
  | float (q : ℚ) : PyVal
deriving DecidableEq, Repr

/-- Python `str(v)` for the values above.  `str(None) = "None"`; float
rendering is modelled by the `ℚ` representation — the development only
relies on `pyStr` being a function of the value. -/
def pyStr : PyVal → String
  | PyVal.none => "None"
  | PyVal.str s => s
  | PyVal.int n => toString n
  | PyVal.float q => toString q

/-- Python `==` on the values above: `None == None`, string equality,
and numeric equality across `int`/`float` (`1 == 1.0` is `True`). -/
def pyEq : PyVal → PyVal → Bool
  | PyVal.none, PyVal.none => true
  | PyVal.str s, PyVal.str t => s = t
  | PyVal.int a, PyVal.int b => a = b
  | PyVal.float p, PyVal.float q => p = q
  | PyVal.int a, PyVal.float q => (a : ℚ) = q
  | PyVal.float p, PyVal.int b => p = (b : ℚ)
  | _, _ => false

/-- A Python `dict` with string keys, as an association list in insertion
order (keys unique at every call site, first binding wins on lookup). -/
abbrev Doc := List (String × PyVal)

/-- `d.get(k)` returning `None`-as-absent: `Option`-valued lookup. -/
def docGet (d : Doc) (k : String) : Option PyVal :=
  (d.find? (fun p => p.1 = k)).map (·.2)

/-- `d.get(k, default)`. -/
def docGetD (d : Doc) (k : String) (v : PyVal) : PyVal :=
  (docGet d k).getD v

/-- The fixed, ordered list of tracked keys of
`crawler/utils.py::compute_hash_for_book`. -/
def hashKeys : List String :=
  ["title", "description", "category", "price_including_tax",
   "price_excluding_tax", "availability", "num_reviews", "image_url",
   "rating"]

/-- `crawler/utils.py::compute_hash_for_book`:
`s = "|".join(str(book_dict.get(k, "")) for k in keys)` followed by
`hashlib.sha256(s.encode()).hexdigest()`.  The SHA-256 digest is an
external deterministic function of the joined string; the development
abstracts it as a parameter `hash`, so every theorem below holds for the
actual digest in particular. -/
def compute_hash_for_book (hash : String → String) (book_dict : Doc) : String :=
  hash (String.intercalate "|"
    (hashKeys.map (fun k => pyStr (docGetD book_dict k (PyVal.str "")))))

/-- The dictionary built by `crawler/crawler.py::parse_book` (lines
257‑271): the fields of one parsed book, in the source's insertion order,
with `content_hash` appended last.  `title` is optional because
`parse_book` sets it to `None` when the `.product_page` container is
absent. -/
structure BookData where
  _id : String
  title : Option String
  description : Option String
  category : Option String
  price_including_tax : Option ℚ
  price_excluding_tax : Option ℚ
  availability : Option String
  num_reviews : Int
  image_url : Option String
  rating : Option Int
  source_url : String
  crawl_timestamp : String
  content_hash : String
deriving DecidableEq, Repr

/-- `Option` to Python value (an absent optional is `None`). -/
def optStr : Option String → PyVal
  | Option.none => PyVal.none
  | some s => PyVal.str s

/-- `Option ℚ` (a Python float or `None`) to Python value. -/
def optFloat : Option ℚ → PyVal
  | Option.none => PyVal.none
  | some q => PyVal.float q

/-- `Option Int` to Python value. -/
def optInt : Option Int → PyVal
  | Option.none => PyVal.none
  | some n => PyVal.int n

/-- The `data` dict of `parse_book` as an association list, in the
source's key insertion order (which is the iteration order of
`book_data.items()` in `process_book`). -/
def BookData.toDoc (b : BookData) : Doc :=
  [("_id", PyVal.str b._id),
   ("title", optStr b.title),
   ("description", optStr b.description),
   ("category", optStr b.category),
   ("price_including_tax", optFloat b.price_including_tax),
   ("price_excluding_tax", optFloat b.price_excluding_tax),
   ("availability", optStr b.availability),
   ("num_reviews", PyVal.int b.num_reviews),
   ("image_url", optStr b.image_url),
   ("rating", optInt b.rating),
   ("source_url", PyVal.str b.source_url),
   ("crawl_timestamp", PyVal.str b.crawl_timestamp),
   ("content_hash", PyVal.str b.content_hash)]

/-- A document of the `book_snapshots` collection
(`crawler/crawler.py` lines 343‑347 and 371‑375). -/
structure Snapshot where
  source_url : String
  html : String
  timestamp : String
deriving DecidableEq, Repr

/-- A document of the `change_log` collection.  `field_changes` is
present only on the `updated` records built in `process_book` (each item
is a key with its `{"old": .., "new": ..}` pair); the `new` records from
`db.py::log_change_entry` lack the key. -/
structure ChangeEntry where
  book_id : String
  change_type : String
  recent : String
  timestamp : String
  field_changes : Option (List (String × PyVal × PyVal))
deriving DecidableEq, Repr

/-- The MongoDB database as the crawler uses it: the `books`,
`book_snapshots` and `change_log` collections, each a list of documents
in insertion order. -/
structure DB where
  books : List Doc
  snapshots : List Snapshot
  change_log : List ChangeEntry
deriving DecidableEq, Repr

/-- `db.books.find_one({"_id": i})`: the first stored book whose `_id`
field equals the given string. -/
def findBook (db : DB) (i : String) : Option Doc :=
  db.books.find? (fun d => docGet d "_id" = some (PyVal.str i))

/-- MongoDB `$set` applied to a stored document: every field of `new` is
written into `old` (overwriting where the key exists, appending where it
does not); fields of `old` absent from `new` are left as they are. -/
def mongoSet (old new : Doc) : Doc :=
  (old.map (fun p =>
     match docGet new p.1 with
     | some v => (p.1, v)
     | Option.none => p)) ++
  new.filter (fun p => (docGet old p.1).isNone)

/-- Apply `f` to the first document satisfying `p` (MongoDB `update_one`
touches at most one document). -/
def updateFirst (p : Doc → Bool) (f : Doc → Doc) : List Doc → List Doc
  | [] => []
  | d :: ds => if p d then f d :: ds else d :: updateFirst p f ds

/-- `crawler/db.py::upsert_book`:
`db.books.update_one({"_id": d["_id"]}, {"$set": d}, upsert=True)`.
If a stored book matches the `_id`, `$set` merges the new fields into it;
otherwise MongoDB's upsert inserts the document (the filter's `_id`
together with the `$set` fields — here exactly `book_dict`). -/
def upsert_book (book_dict : Doc) (db : DB) : DB :=
  match docGet book_dict "_id" with
  | Option.none => db  -- unreachable: the code indexes book_dict["_id"], present at every call site
  | some i =>
    if (db.books.find? (fun d => docGet d "_id" = some i)).isSome then
      { db with books :=
          updateFirst (fun d => docGet d "_id" = some i) (fun d => mongoSet d book_dict) db.books }
    else
      { db with books := db.books ++ [book_dict] }

/-- `crawler/db.py::insert_snapshot`: insert into `book_snapshots` and
return the string form of the generated id (modelled as the insertion
index). -/
def insert_snapshot (snap : Snapshot) (db : DB) : String × DB :=
  (toString db.snapshots.length, { db with snapshots := db.snapshots ++ [snap] })

/-- `crawler/db.py::mark_all_changes_as_old`:
`db.change_log.update_many({}, {"$set": {"recent": "old"}})`. -/
def mark_all_changes_as_old (db : DB) : DB :=
  { db with change_log := db.change_log.map (fun e => { e with recent := "old" }) }

/-- `crawler/db.py::log_change_entry`: insert a change-log document with
`recent = "new"` (and no `field_changes` key) and return it. -/
def log_change_entry (book_id change_type ts : String) (db : DB) :
    ChangeEntry × DB :=
  let doc : ChangeEntry :=
    { book_id := book_id, change_type := change_type, recent := "new",
      timestamp := ts, field_changes := Option.none }
  (doc, { db with change_log := db.change_log ++ [doc] })

/-- Python exceptions raised by the code under consideration.
`fetchExhausted` stands for the generic
`Exception(f"Failed to fetch {url} after {RETRIES} tries")` of
`Crawler.fetch` (the spec's `FetchExhausted`), which carries the URL and
the attempt count; the others are the standard exceptions the interpreter
raises at the marked spots in `parse_book`. -/
inductive PyErr where
  | fetchExhausted (url : String) (attempts : Nat)
  | attributeError
  | valueError
  | indexError
deriving DecidableEq, Repr

/-- The classification outcome of `process_book` (lines 326‑341),
extracted as a pure function of the freshly parsed record and the stored
record: `Unchanged` / `Updated` (with the computed field diff) / `New`. -/
inductive Outcome where
  | unchanged
  | updated (field_changes : List (String × PyVal × PyVal))
  | isNew
deriving DecidableEq, Repr

/-- The `changed_fields` loop of `process_book` (lines 335‑341): iterate
over `book_data.items()`, skip `raw_snapshot_id` and `content_hash`, and
record `(key, old, new)` whenever `existing.get(key) != new_val`
(`existing.get` defaults to `None`). -/
def changedFields (book_data : BookData) (existing : Doc) :
    List (String × PyVal × PyVal) :=
  book_data.toDoc.filterMap (fun p =>
    if p.1 = "raw_snapshot_id" ∨ p.1 = "content_hash" then Option.none
    else if pyEq (docGetD existing p.1 PyVal.none) p.2 then Option.none
    else some (p.1, docGetD existing p.1 PyVal.none, p.2))

/-- The pure classification of `process_book` (lines 326‑341):
`existing.get("content_hash") == book_data["content_hash"]` decides
`unchanged`; an absent `existing` is `new`; otherwise `updated` with the
`changed_fields` diff. -/
def classify (book_data : BookData) (existing : Option Doc) : Outcome :=
  match existing with
  | Option.none => Outcome.isNew
  | some ex =>
    if pyEq (docGetD ex "content_hash" PyVal.none) (PyVal.str book_data.content_hash)
    then Outcome.unchanged
    else Outcome.updated (changedFields book_data ex)

/-- `process_book` (lines 325‑385) after a successful fetch + parse:
look up the stored record by `_id`; when unchanged return `None` with the
database untouched; when changed insert a snapshot, attach
`raw_snapshot_id`, upsert the book, append the change record; when new
insert a snapshot, attach `raw_snapshot_id`, upsert, and log a `"new"`
entry.  All `datetime.now()` readings of the block are modelled by the
single instant `ts`. -/
def process_book_ok (book_data : BookData) (url html ts : String) (db : DB) :
    Option ChangeEntry × DB :=
  match findBook db book_data._id with
  | some existing =>
    if pyEq (docGetD existing "content_hash" PyVal.none)
        (PyVal.str book_data.content_hash) then
      (Option.none, db)
    else
      let changed := changedFields book_data existing
      let snapRes := insert_snapshot ⟨url, html, ts⟩ db
      let doc₂ := book_data.toDoc ++ [("raw_snapshot_id", PyVal.str snapRes.1)]
      let db₂ := upsert_book doc₂ snapRes.2
      let change : ChangeEntry :=
        { book_id := book_data._id, change_type := "updated", recent := "new",
          timestamp := ts, field_changes := some changed }
      (some change, { db₂ with change_log := db₂.change_log ++ [change] })
  | Option.none =>
      let snapRes := insert_snapshot ⟨url, html, ts⟩ db
      let doc₂ := book_data.toDoc ++ [("raw_snapshot_id", PyVal.str snapRes.1)]
      let db₂ := upsert_book doc₂ snapRes.2
      let logRes := log_change_entry book_data._id "new" ts db₂
      (some logRes.1, logRes.2)

/-- `process_book` (lines 321‑389) with the per-item fetch + parse stage
abstracted as its result: the `try`/`except` at the item boundary turns
any pipeline exception into a logged `None` result (lines 387‑389). -/
def process_book (pipeline : Except PyErr (BookData × String)) (url ts : String)
    (db : DB) : Option ChangeEntry × DB :=
  match pipeline with
  | Except.error _ => (Option.none, db)
  | Except.ok bd => process_book_ok bd.1 url bd.2 ts db

/-- The `asyncio.gather(*tasks)` of `run` (lines 427‑428): the per-item
results in task-submission order (the order of the discovered link list),
with the shared database threaded through.  `item` is the per-URL
fetch + parse oracle. -/
def run_results (item : String → Except PyErr (BookData × String)) (ts : String) :
    List String → DB → List (Option ChangeEntry) × DB
  | [], db => ([], db)
  | u :: us, db =>
    let r := process_book (item u) u ts db
    let rest := run_results item ts us r.2
    (r.1 :: rest.1, rest.2)

/-- `Crawler.run` (lines 422‑431): age out the previous entries, process
every discovered URL (the list produced by `get_all_book_links`, passed
here as `urls`), and return the non-`None` results filtered in place
(`[r for r in results if r is not None]`). -/
def run (item : String → Except PyErr (BookData × String)) (ts : String)
    (urls : List String) (db : DB) : List ChangeEntry × DB :=
  let db₀ := mark_all_changes_as_old db
  let gathered := run_results item ts urls db₀
  (gathered.1.filterMap id, gathered.2)

/-- The retry loop of `Crawler.fetch` (lines 83‑93): attempts
`0, 1, …, retries − 1`; a successful attempt returns its text, a failing
one logs and sleeps; falling out of the loop raises the exhaustion
exception carrying the URL and `RETRIES`.  The second component counts
the attempts actually made.  `attemptResult` simulates
`self.client.get(url)` + `raise_for_status()` per attempt index. -/
def fetchLoop (attemptResult : Nat → Except String String) (url : String) :
    Nat → Nat → Except PyErr String × Nat
  | 0, attempt => (Except.error (PyErr.fetchExhausted url attempt), attempt)
  | remaining + 1, attempt =>
    match attemptResult attempt with
    | Except.ok text => (Except.ok text, attempt + 1)
    | Except.error _ => fetchLoop attemptResult url remaining (attempt + 1)

/-- `Crawler.fetch` with a given retry budget (`RETRIES` defaults to 3):
run the loop with the full budget remaining, starting at attempt 0.  At
exhaustion the loop has made `attempt = retries` attempts, so the raised
error carries the url and `RETRIES` exactly as the source's message
f-string does. -/
def fetch (retries : Nat) (attemptResult : Nat → Except String String)
    (url : String) : Except PyErr String × Nat :=
  fetchLoop attemptResult url retries 0

/-- One listing page as `get_all_book_links` reads it: the `href` of each
`article.product_pod h3 a` in document order, and the `href` of the
`li.next a` element when that element is present and truthy.  A `next`
of `none` models a page with no (truthy) next element or no `href`
attribute on it; an empty-string `href` is falsy and also stops the
loop (`if next_el and next_el.get("href")`). -/
structure ListingPage where
  items : List String
  next : Option String
deriving DecidableEq, Repr

/-- The pagination loop of `get_all_book_links` (lines 123‑138): collect
`urljoin(page_url, rel)` for each item link of the current page, then
follow the next link, resolved against the current page URL.  `join`
abstracts the library function `urllib.parse.urljoin`; `site` maps a page
URL to its parsed listing page; `fuel` bounds the walk (the Python loop
runs unboundedly — a terminating pagination never exhausts the fuel). -/
def collectBookLinks (join : String → String → String)
    (site : String → ListingPage) : Nat → String → List String
  | 0, _ => []
  | fuel + 1, page_url =>
    let page := site page_url
    let links := page.items.map (fun rel => join page_url rel)
    match page.next with
    | Option.none => links
    | some h =>
      if h = "" then links
      else links ++ collectBookLinks join site fuel (join page_url h)

/-- The dedup loop of `get_all_book_links` (lines 139‑144): walk the
collected links, keeping the first occurrence of each URL.  The Python
`seen` set always equals the set of elements of `uniq`, so membership in
the accumulator is the faithful test. -/
def dedupFirstSeen (links : List String) : List String :=
  links.foldl (fun uniq u => if u ∈ uniq then uniq else uniq ++ [u]) []

/-- `Crawler.get_all_book_links` (lines 95‑145), starting from
`{base_url}/catalogue/page-1.html`. -/
def get_all_book_links (join : String → String → String)
    (site : String → ListingPage) (fuel : Nat) (base_url : String) : List String :=
  dedupFirstSeen (collectBookLinks join site fuel (base_url ++ "/catalogue/page-1.html"))

/-- One attribute row of `table.table.table-striped`: the text of its
`th` and `td` cells, `none` when the cell element is absent (in which
case `tr.select_one(..).get_text` raises `AttributeError`). -/
structure TableRow where
  th : Option String
  td : Option String
deriving DecidableEq, Repr

/-- A book detail page as `parse_book` queries it.  Every `Option` of an
element models "the selector found a truthy match" (bs4 tags with no
children are falsy, which only narrows what counts as present).
`product_page` is the `.product_page` container with the text of its
`h1`, `none` inside when the container has no `h1`.
`description_header` is the `#product_description` element with the text
of its following `p` sibling.  `breadcrumbs` are the texts of
`ul.breadcrumb li a`.  The three `img` fields are the three prioritized
selectors `.carousel img`, `#product_gallery img`, `.item.active img`,
each carrying its `src` attribute (`none` inside when the attribute is
missing — `urljoin(url, None)` then raises `TypeError`).
`star_classes` is the class list of the `.star-rating` element. -/
structure PageModel where
  product_page : Option (Option String)
  description_header : Option (Option String)
  breadcrumbs : List String
  rows : List TableRow
  carousel_img : Option (Option String)
  gallery_img : Option (Option String)
  active_item_img : Option (Option String)
  star_classes : Option (List String)
deriving DecidableEq, Repr

/-- The `table` dict built by lines 229‑233; each row must have both
cells.  Later rows with the same `th` overwrite earlier ones
(`table[th] = td`), so lookup takes the last binding. -/
def buildTable : List TableRow → Except PyErr (List (String × String))
  | [] => Except.ok []
  | r :: rs =>
    match r.th, r.td with
    | some th, some td => (buildTable rs).map (fun t => (th, td) :: t)
    | _, _ => Except.error PyErr.attributeError

/-- `table.get(k)` with last-assignment-wins dict semantics: the rows
are listed in document order, and `table[th] = td` overwrites any earlier
assignment to the same key, so lookup scans from the end. -/
def tableGet (t : List (String × String)) (k : String) : Option String :=
  (t.reverse.find? (fun p => p.1 = k)).map (·.2)

/-- Digit list to number, most significant first. -/
def digitsVal (ds : List Char) : Nat :=
  ds.foldl (fun n c => 10 * n + (c.toNat - '0'.toNat)) 0

/-- Python `float(m)` for a string `m` of digits and dots (all
`money_to_float` can pass after `re.sub(r"[^0-9\.]", "", s)`): it parses
iff `m` has at least one digit and at most one dot. -/
def pyFloat? (m : String) : Option ℚ :=
  let cs := m.toList
  if cs.any (fun c => ¬ (c.isDigit ∨ c = '.')) then Option.none
  else if 1 < cs.count '.' then Option.none
  else if ¬ cs.any Char.isDigit then Option.none
  else
    let intPart := cs.takeWhile (· ≠ '.')
    let fracPart := (cs.dropWhile (· ≠ '.')).drop 1
    some ((digitsVal intPart : ℚ) + (digitsVal fracPart : ℚ) / (10 ^ fracPart.length : ℕ))

/-- `money_to_float` (lines 235‑242): falsy input (`None` or `""`) gives
`None`; otherwise strip every character that is not a digit or a dot and
try `float`, any failure giving `None`. -/
def money_to_float : Option String → Option ℚ
  | Option.none => Option.none
  | some s =>
    if s = "" then Option.none
    else pyFloat? (String.mk (s.toList.filter (fun c => c.isDigit ∨ c = '.')))

/-- Python `str.strip()` over the character list (structural, so the
kernel can evaluate it). -/
def stripChars (cs : List Char) : List Char :=
  ((cs.dropWhile Char.isWhitespace).reverse.dropWhile Char.isWhitespace).reverse

/-- A concrete integer parser — optional surrounding whitespace, optional
sign, ASCII digits — agreeing with Python `int()` on such inputs (the
fixtures below use only `"0"`).  `int()` itself also accepts
underscore-grouped and non-ASCII decimal digits, so `parse_book`
abstracts it as a parameter `pyIntOf` exactly as it abstracts the digest
and `urljoin`; this instance only evaluates concrete pages. -/
def pyInt? (s : String) : Option Int :=
  let t := stripChars s.toList
  match t with
  | '-' :: ds =>
    if ds ≠ [] ∧ ds.all Char.isDigit then some (-(digitsVal ds : Int)) else Option.none
  | '+' :: ds =>
    if ds ≠ [] ∧ ds.all Char.isDigit then some (digitsVal ds : Int) else Option.none
  | ds =>
    if ds ≠ [] ∧ ds.all Char.isDigit then some (digitsVal ds : Int) else Option.none

/-- The star-rating word map of `parse_rating` (lines 147‑178). -/
def ratingMap (c : String) : Option Int :=
  if c = "One" then some 1
  else if c = "Two" then some 2
  else if c = "Three" then some 3
  else if c = "Four" then some 4
  else if c = "Five" then some 5
  else Option.none

/-- `Crawler.parse_rating`: the first class of the `.star-rating` element
that is a key of the map; `None` when the element is absent or no class
matches. -/
def parse_rating (page : PageModel) : Option Int :=
  match page.star_classes with
  | Option.none => Option.none
  | some classes => classes.findSome? ratingMap

/-- The remainder of the character list after the first `"://"`, when
present. -/
def afterSchemeSep : List Char → Option (List Char)
  | [] => Option.none
  | c :: cs =>
    if c = ':' ∧ cs.take 2 = ['/', '/'] then some (cs.drop 2)
    else afterSchemeSep cs

/-- Split a character list on a separator character; like Python
`str.split`, the empty list yields one empty segment. -/
def splitChar (c : Char) : List Char → List (List Char)
  | [] => [[]]
  | a :: rest =>
    match splitChar c rest with
    | [] => [[]]
    | s :: ss => if a = c then [] :: s :: ss else (a :: s) :: ss

/-- The path component of `urllib.parse.urlparse(url)`: for a URL with a
scheme separator, the part of the authority-relative remainder from its
first `/`; otherwise the whole string (query/fragment splitting is not
modelled — the crawler's URLs carry neither). -/
def urlPath (url : String) : String :=
  match afterSchemeSep url.toList with
  | Option.none => url
  | some rest => String.mk (rest.dropWhile (fun c => c ≠ '/'))

/-- The id derivation of `parse_book` (lines 255‑256):
`parsed.path.rstrip("/").split("/")[-2] if parsed.path else url`; the
`[-2]` index raises `IndexError` when the split has fewer than two
segments. -/
def bookIdOf (url : String) : Except PyErr String :=
  let path := urlPath url
  if path = "" then Except.ok url
  else
    let stripped := ((path.toList.reverse.dropWhile (fun c => c = '/')).reverse)
    let segs := splitChar '/' stripped
    if h : 2 ≤ segs.length then
      Except.ok (String.mk (segs.get ⟨segs.length - 2, by omega⟩))
    else Except.error PyErr.indexError

/-- The title extraction of lines 217‑218
(`product.select_one("h1").get_text(strip=True) if product else None`):
no container gives a `None` title; a container without an `h1` raises
`AttributeError` (`None.get_text`). -/
def titleOf (page : PageModel) : Except PyErr (Option String) :=
  match page.product_page with
  | Option.none => Except.ok Option.none
  | some Option.none => Except.error PyErr.attributeError
  | some (some t) => Except.ok (some t)

/-- The prioritized image-selector chain of lines 248‑252: the first
present element wins (`or` on bs4 tags). -/
def imgSrcOf (page : PageModel) : Option (Option String) :=
  page.carousel_img <|> page.gallery_img <|> page.active_item_img

/-- Lines 248‑253: `urljoin(url, img.get("src")) if img else None`.  No
image element gives `None`; a present image without `src` passes `None`
to `urljoin`, which returns the base URL unchanged (`if not url: return
base`), so the record's image URL becomes the page URL itself; otherwise
the `src` is resolved against the page URL.  This step never raises. -/
def imageUrlOf (join : String → String → String) (url : String)
    (page : PageModel) : Option String :=
  match imgSrcOf page with
  | Option.none => Option.none
  | some Option.none => some url
  | some (some src) => some (join url src)

/-- `Crawler.parse_book` (lines 180‑272) over the page model: extract
title (raising `AttributeError` when the product container is present
without an `h1`), description, category (third breadcrumb), the attribute
table, prices, availability, review count
(`int(table.get("Number of reviews", "0"))`, raising `ValueError` when
`int()` rejects the value), image URL (first matching selector, never
raising), star rating, id from the URL, the `crawl_timestamp` instant
`ts`, and the content fingerprint of the assembled dict.  `hash`, `join`
and `pyIntOf` abstract the external builtins
`hashlib.sha256(…).hexdigest()`, `urljoin` and `int()`; the cascade fails
with the first raising step, exactly as the Python statement sequence
does.  Returns the record together with the page content
(`return data, html`). -/
def parse_book (hash : String → String) (join : String → String → String)
    (pyIntOf : String → Option Int) (page : PageModel) (html url ts : String) :
    Except PyErr (BookData × String) :=
  match titleOf page with
  | Except.error e => Except.error e
  | Except.ok title =>
    match buildTable page.rows with
    | Except.error e => Except.error e
    | Except.ok table =>
      match pyIntOf ((tableGet table "Number of reviews").getD "0") with
      | Option.none => Except.error PyErr.valueError
      | some num_reviews =>
        match bookIdOf url with
        | Except.error e => Except.error e
        | Except.ok book_id =>
          let desc : Option String :=
            match page.description_header with
            | Option.none => Option.none
            | some sib => sib
          let category : Option String :=
            if h : 3 ≤ page.breadcrumbs.length then
              some (page.breadcrumbs.get ⟨2, by omega⟩)
            else Option.none
          let price_incl := money_to_float (tableGet table "Price (incl. tax)")
          let price_excl := money_to_float (tableGet table "Price (excl. tax)")
          let availability := tableGet table "Availability"
          let image_url := imageUrlOf join url page
          let rating := parse_rating page
          let preHash : Doc :=
            [("_id", PyVal.str book_id),
             ("title", optStr title),
             ("description", optStr desc),
             ("category", optStr category),
             ("price_including_tax", optFloat price_incl),
             ("price_excluding_tax", optFloat price_excl),
             ("availability", optStr availability),
             ("num_reviews", PyVal.int num_reviews),
             ("image_url", optStr image_url),
             ("rating", optInt rating),
             ("source_url", PyVal.str url),
             ("crawl_timestamp", PyVal.str ts)]
          Except.ok
            ({ _id := book_id, title := title, description := desc,
               category := category, price_including_tax := price_incl,
               price_excluding_tax := price_excl,
               availability := availability, num_reviews := num_reviews,
               image_url := image_url, rating := rating, source_url := url,
               crawl_timestamp := ts,
               content_hash := compute_hash_for_book hash preHash }, html)

/-- Spec-side definition (§4.2): "deduplicated while preserving
first-seen order — an item linked from two listing pages appears once, at
its first occurrence position": keep each first occurrence, delete every
later copy. -/
def specDedup : List String → List String
  | [] => []
  | u :: us => u :: specDedup (us.filter (fun v => v ≠ u))
termination_by l => l.length
decreasing_by
  simp only [List.length_cons]
  exact Nat.lt_succ_of_le (List.length_filter_le _ _)

/-- C7 helper: the fold of `dedupFirstSeen` relative to an accumulator of
already-kept URLs. -/
def dedupFrom (acc : List String) : List String → List String
  | [] => []
  | u :: us => if u ∈ acc then dedupFrom acc us else u :: dedupFrom (acc ++ [u]) us

/-- A parsed record used by the concrete witnesses below. -/
def demoBook : BookData :=
  { _id := "b1", title := some "A Light in the Attic",
    description := some "desc", category := some "Poetry",
    price_including_tax := some 51, price_excluding_tax := some 46,
    availability := some "In stock (22 available)", num_reviews := 0,
    image_url := some "http://x/img.jpg", rating := some 3,
    source_url := "http://x/catalogue/b1/index.html", crawl_timestamp := "2024-01-01T00:00:00+00:00Z",
    content_hash := "h1" }

/-- First fingerprint-witness dictionary. -/
def demoDoc1 : Doc :=
  [("title", PyVal.str "T"), ("description", PyVal.none),
   ("category", PyVal.str "Poetry"), ("price_including_tax", PyVal.float 5),
   ("price_excluding_tax", PyVal.float 5), ("availability", PyVal.str "In stock"),
   ("num_reviews", PyVal.int 0), ("image_url", PyVal.str "http://x/i.jpg"),
   ("rating", PyVal.int 3), ("source_url", PyVal.str "http://x/a/index.html"),
   ("crawl_timestamp", PyVal.str "2024-01-01")]

/-- Second fingerprint-witness dictionary: same nine tracked fields,
different `source_url` and `crawl_timestamp`. -/
def demoDoc2 : Doc :=
  [("title", PyVal.str "T"), ("description", PyVal.none),
   ("category", PyVal.str "Poetry"), ("price_including_tax", PyVal.float 5),
   ("price_excluding_tax", PyVal.float 5), ("availability", PyVal.str "In stock"),
   ("num_reviews", PyVal.int 0), ("image_url", PyVal.str "http://x/i.jpg"),
   ("rating", PyVal.int 3), ("source_url", PyVal.str "http://y/b/index.html"),
   ("crawl_timestamp", PyVal.str "2024-02-02")]

/-- C2 counterexample: a stored record identical to `demoBook` except for
its `content_hash` value. -/
def cexExisting : Doc :=
  BookData.toDoc { demoBook with content_hash := "h2" }

/-- C4 counterexample: a detail page with no `.product_page` container at
all (hence no title), and nothing else either. -/
def titlelessPage : PageModel :=
  { product_page := Option.none, description_header := Option.none,
    breadcrumbs := [], rows := [],
    carousel_img := Option.none, gallery_img := Option.none,
    active_item_img := Option.none, star_classes := Option.none }

/-- The record `parse_book` produces for `titlelessPage` under the
identity digest: every optional field `None`, zero reviews, and the
fingerprint equal to the joined pre-hash string. -/
def titlelessResult (url ts : String) (i : String) : BookData :=
  { _id := i, title := Option.none, description := Option.none,
    category := Option.none, price_including_tax := Option.none,
    price_excluding_tax := Option.none, availability := Option.none,
    num_reviews := 0, image_url := Option.none, rating := Option.none,
    source_url := url, crawl_timestamp := ts,
    content_hash := "None|None|None|None|None|None|0|None|None" }

/-- C4 witness page: the product container is present but has no `h1`. -/
def headlessProductPage : PageModel :=
  { titlelessPage with product_page := some Option.none }

/-- C5 counterexample: a stored book with a field (`extra`) that the
incoming record does not carry. -/
def cexStored : Doc := [("_id", PyVal.str "b1"), ("extra", PyVal.int 1)]

/-- C5 counterexample: the incoming record for the same `_id`. -/
def cexIncoming : Doc := [("_id", PyVal.str "b1"), ("title", PyVal.str "T")]

/-- C7 fixture: page 1 with two items and a next link, page 2 with one
item and no next link; the item hrefs are absolute, so `urljoin` leaves
them unchanged (`fixtureJoin`). -/
def fixtureSite (u : String) : ListingPage :=
  if u = "http://s/catalogue/page-1.html" then
    { items := ["item-1", "item-2"], next := some "http://s/catalogue/page-2.html" }
  else if u = "http://s/catalogue/page-2.html" then
    { items := ["item-3"], next := Option.none }
  else { items := [], next := Option.none }

/-- `urljoin` on an absolute second argument returns it unchanged; the C7
fixture only resolves absolute hrefs. -/
def fixtureJoin (_base rel : String) : String := rel

/-- C10 witness: a per-item oracle that parses every URL into a fresh
record whose id is the URL itself. -/
def simpleItem (u : String) : Except PyErr (BookData × String) :=
  Except.ok ({ demoBook with _id := u, source_url := u }, "<html>")

/-- Append a sequence of change-log entries through
`db.py::log_change_entry`, all at instant `ts`. -/
def appendEntries (ts : String) (items : List (String × String)) (db : DB) : DB :=
  items.foldl (fun s it => (log_change_entry it.1 it.2 ts s).2) db

/-- The entry `log_change_entry` builds for a `(book_id, change_type)`
pair. -/
def mkLoggedEntry (ts : String) (it : String × String) : ChangeEntry :=
  { book_id := it.1, change_type := it.2, recent := "new", timestamp := ts,
    field_changes := Option.none }

/-- C1: the content fingerprint is a pure function of exactly the nine
tracked fields (title, description, category, both prices, availability,
num_reviews, image_url, rating), joined in a fixed order with the `"|"`
separator, any missing field defaulting to the empty string before
hashing: two dictionaries whose nine tracked lookups agree produce the
same fingerprint regardless of all other fields (e.g. `source_url`,
`crawl_timestamp`), for every digest function — in particular for
SHA-256. -/
theorem fingerprint_depends_only_on_tracked_fields
    (hash : String → String) (d₁ d₂ : Doc)
    (h : ∀ k ∈ hashKeys, docGet d₁ k = docGet d₂ k) :
    compute_hash_for_book hash d₁ = compute_hash_for_book hash d₂ := by
  have hmap : hashKeys.map (fun k => pyStr (docGetD d₁ k (PyVal.str ""))) =
      hashKeys.map (fun k => pyStr (docGetD d₂ k (PyVal.str ""))) := by
    apply List.map_congr_left
    intro k hk
    simp only [docGetD, h k hk]
  simp only [compute_hash_for_book, hmap]

/-- C1 witness: two concrete dictionaries agreeing on the nine tracked
fields but differing in `source_url` and `crawl_timestamp` have the same
fingerprint. -/
theorem fingerprint_depends_only_on_tracked_fields_witness :
    compute_hash_for_book id demoDoc1 = compute_hash_for_book id demoDoc2 :=
  fingerprint_depends_only_on_tracked_fields id demoDoc1 demoDoc2 (by decide)

/-- C2 counterexample: for the stored record `cexExisting` — identical to
the fresh record `demoBook` in every compared field but carrying a
different stored fingerprint — the fingerprints differ (so the outcome is
the claim's "otherwise" case), yet the computed `field_changes` map is
empty, refuting "Updated with a non-empty field_changes map containing at
least one differing field". -/
theorem classify_empty_diff_counterexample :
    pyEq (docGetD cexExisting "content_hash" PyVal.none)
      (PyVal.str demoBook.content_hash) = false ∧
    classify demoBook (some cexExisting) = Outcome.updated [] := by
  constructor
  · decide
  · decide

/-- C2 (amended): classification yields `Unchanged` iff the existing
record is present with a stored fingerprint Python-equal to the new
record's; `New` iff the existing record is absent; otherwise `Updated`
whose `field_changes` map contains exactly those fields of the new record
other than `content_hash` and `raw_snapshot_id` whose old and new values
differ (a map that can be empty, as the counterexample shows). -/
theorem classify_outcome_characterization (bd : BookData) (ex? : Option Doc) :
    (classify bd ex? = Outcome.unchanged ↔
       ∃ ex, ex? = some ex ∧
         pyEq (docGetD ex "content_hash" PyVal.none) (PyVal.str bd.content_hash) = true) ∧
    (classify bd ex? = Outcome.isNew ↔ ex? = Option.none) ∧
    (∀ ex, ex? = some ex →
       pyEq (docGetD ex "content_hash" PyVal.none) (PyVal.str bd.content_hash) = false →
       classify bd ex? = Outcome.updated (changedFields bd ex)) ∧
    (∀ ex k o n,
       (k, o, n) ∈ changedFields bd ex ↔
         ((k, n) ∈ bd.toDoc ∧ k ≠ "raw_snapshot_id" ∧ k ≠ "content_hash" ∧
          o = docGetD ex k PyVal.none ∧ pyEq o n = false)) := by
  refine ⟨?_, ?_, ?_, ?_⟩
  · cases ex? with
    | none => simp [classify]
    | some ex =>
      by_cases hh :
          pyEq (docGetD ex "content_hash" PyVal.none) (PyVal.str bd.content_hash) = true
      · simp [classify, hh]
      · simp [classify, hh]
  · cases ex? with
    | none => simp [classify]
    | some ex =>
      simp only [classify]
      split <;> simp
  · intro ex hex hne
    subst hex
    simp [classify, hne]
  · intro ex k o n
    constructor
    · intro hmem
      rcases List.mem_filterMap.mp hmem with ⟨p, hp, hf⟩
      obtain ⟨pk, pv⟩ := p
      dsimp only at hf
      by_cases hskip : pk = "raw_snapshot_id" ∨ pk = "content_hash"
      · rw [if_pos hskip] at hf
        exact absurd hf (by simp)
      · rw [if_neg hskip] at hf
        cases hb : pyEq (docGetD ex pk PyVal.none) pv with
        | true => rw [hb] at hf; simp at hf
        | false =>
          rw [hb] at hf
          simp only [Bool.false_eq_true, if_false, Option.some.injEq,
            Prod.mk.injEq] at hf
          obtain ⟨hk, ho, hn⟩ := hf
          subst hk
          subst hn
          exact ⟨hp, fun hc => hskip (Or.inl hc), fun hc => hskip (Or.inr hc),
            ho.symm, ho ▸ hb⟩
    · rintro ⟨hmem, h1, h2, ho, hne⟩
      apply List.mem_filterMap.mpr
      refine ⟨(k, n), hmem, ?_⟩
      have hskip : ¬ (k = "raw_snapshot_id" ∨ k = "content_hash") := by
        simp [h1, h2]
      dsimp only
      rw [if_neg hskip, ← ho, hne]
      simp

/-- C2 witness: for a stored record equal to `demoBook`'s own dictionary
the outcome is `Unchanged`, and for an absent stored record it is
`New`. -/
theorem classify_outcome_characterization_witness :
    classify demoBook (some (BookData.toDoc demoBook)) = Outcome.unchanged ∧
    classify demoBook Option.none = Outcome.isNew := by
  constructor
  · exact (classify_outcome_characterization demoBook
      (some (BookData.toDoc demoBook))).1.mpr ⟨BookData.toDoc demoBook, rfl, by decide⟩
  · exact (classify_outcome_characterization demoBook Option.none).2.1.mpr rfl

/-- Lookup on a non-empty association list: the head answers when its
key matches, the tail otherwise. -/
theorem docGet_cons (pk : String) (pv : PyVal) (ps : Doc) (k : String) :
    docGet ((pk, pv) :: ps) k = if pk = k then some pv else docGet ps k := by
  by_cases hk : pk = k
  · subst hk
    simp [docGet, List.find?_cons_of_pos]
  · rw [if_neg hk]
    unfold docGet
    rw [List.find?_cons_of_neg]
    simp [hk]

/-- Lookup distributes over concatenation of documents, first part
first. -/
theorem docGet_append (a b : Doc) (k : String) :
    docGet (a ++ b) k = (docGet a k).or (docGet b k) := by
  induction a with
  | nil => simp [docGet]
  | cons p ps ih =>
    obtain ⟨pk, pv⟩ := p
    rw [List.cons_append, docGet_cons, docGet_cons]
    by_cases hk : pk = k
    · simp [hk]
    · simp [hk, ih]

/-- The `$set` override map preserves keys and rewrites present keys to
the incoming value when one exists. -/
theorem docGet_setMap (old new : Doc) (k : String) :
    docGet (old.map (fun p =>
        match docGet new p.1 with
        | some v => (p.1, v)
        | Option.none => p)) k =
      (docGet old k).map (fun v =>
        match docGet new k with
        | some w => w
        | Option.none => v) := by
  induction old with
  | nil => simp [docGet]
  | cons p ps ih =>
    obtain ⟨pk, pv⟩ := p
    simp only [List.map_cons]
    cases hnew : docGet new pk with
    | none =>
      show docGet ((pk, pv) :: _) k = _
      rw [docGet_cons, docGet_cons]
      by_cases hk : pk = k
      · subst hk
        rw [if_pos rfl, if_pos rfl]
        simp [hnew]
      · rw [if_neg hk, if_neg hk]
        exact ih
    | some w =>
      show docGet ((pk, w) :: _) k = _
      rw [docGet_cons, docGet_cons]
      by_cases hk : pk = k
      · subst hk
        rw [if_pos rfl, if_pos rfl]
        simp [hnew]
      · rw [if_neg hk, if_neg hk]
        exact ih

/-- Keys already stored never survive the `$set` append filter. -/
theorem docGet_filter_absentKeys_of_present (old new : Doc) (k : String) (v : PyVal)
    (h : docGet old k = some v) :
    docGet (new.filter (fun p => (docGet old p.1).isNone)) k = Option.none := by
  induction new with
  | nil => simp [docGet]
  | cons p ps ih =>
    obtain ⟨pk, pv⟩ := p
    by_cases hk : pk = k
    · subst hk
      simp only [List.filter_cons, h, Option.isNone_some, Bool.false_eq_true,
        if_false]
      exact ih
    · cases hg : (docGet old pk).isNone with
      | true =>
        simp only [List.filter_cons]
        rw [hg, if_pos rfl, docGet_cons, if_neg hk]
        exact ih
      | false =>
        simp only [List.filter_cons]
        rw [hg]
        simp only [Bool.false_eq_true, if_false]
        exact ih

/-- Keys not stored pass the `$set` append filter untouched. -/
theorem docGet_filter_absentKeys_of_absent (old new : Doc) (k : String)
    (h : docGet old k = Option.none) :
    docGet (new.filter (fun p => (docGet old p.1).isNone)) k = docGet new k := by
  induction new with
  | nil => simp [docGet]
  | cons p ps ih =>
    obtain ⟨pk, pv⟩ := p
    by_cases hk : pk = k
    · subst hk
      simp only [List.filter_cons, h, Option.isNone_none, if_pos]
      rw [docGet_cons, docGet_cons, if_pos rfl, if_pos rfl]
    · cases hg : (docGet old pk).isNone with
      | true =>
        simp only [List.filter_cons]
        rw [hg, if_pos rfl, docGet_cons, docGet_cons, if_neg hk, if_neg hk]
        exact ih
      | false =>
        simp only [List.filter_cons]
        rw [hg]
        simp only [Bool.false_eq_true, if_false]
        rw [docGet_cons, if_neg hk]
        exact ih

/-- Observable semantics of MongoDB `$set`: the merged document answers
every lookup with the incoming value when the incoming document carries
the key, and with the stored value otherwise. -/
theorem mongoSet_docGet (old new : Doc) (k : String) :
    docGet (mongoSet old new) k = (docGet new k).or (docGet old k) := by
  unfold mongoSet
  rw [docGet_append, docGet_setMap]
  cases hold : docGet old k with
  | none =>
    rw [docGet_filter_absentKeys_of_absent old new k hold]
    cases docGet new k <;> simp
  | some v =>
    rw [docGet_filter_absentKeys_of_present old new k v hold]
    cases docGet new k <;> simp

/-- `updateFirst` rewrites exactly the first match, and the rewritten
document is found again when it still satisfies the predicate. -/
theorem find?_updateFirst (p : Doc → Bool) (f : Doc → Doc) (l : List Doc)
    (b : Doc) (hb : l.find? p = some b) (hf : p (f b) = true) :
    (updateFirst p f l).find? p = some (f b) := by
  induction l with
  | nil => simp at hb
  | cons d ds ih =>
    cases hd : p d with
    | true =>
      rw [List.find?_cons_of_pos _ hd] at hb
      obtain rfl := Option.some.inj hb
      simp [updateFirst, hd, List.find?_cons_of_pos _ hf]
    | false =>
      rw [List.find?_cons_of_neg _ (by simp [hd])] at hb
      simp only [updateFirst, hd, Bool.false_eq_true, if_false]
      rw [List.find?_cons_of_neg _ (by simp [hd])]
      exact ih hb

/-- C5 counterexample: upserting a record for an `_id` whose stored
document carries a field (`extra`) absent from the incoming record keeps
that stale field, so the stored record afterwards is not the given
record: `update_one` with `$set` merges, it does not replace wholesale. -/
theorem upsert_book_retains_stale_field_counterexample :
    findBook (upsert_book cexIncoming
        { books := [cexStored], snapshots := [], change_log := [] }) "b1" =
      some [("_id", PyVal.str "b1"), ("extra", PyVal.int 1),
            ("title", PyVal.str "T")] ∧
    findBook (upsert_book cexIncoming
        { books := [cexStored], snapshots := [], change_log := [] }) "b1" ≠
      some cexIncoming ∧
    docGet cexIncoming "extra" = Option.none := by
  refine ⟨by decide, by decide, by decide⟩

/-- C5 (amended): `upsert_book` creates the record when absent; when a
record with the same `_id` is stored, `update_one` with `$set` overwrites
every field present in the incoming record but retains stored fields the
incoming record does not carry (a merge, not a wholesale replacement);
the other collections are untouched. -/
theorem upsert_book_set_merge_semantics (d : Doc) (db : DB) (s : String)
    (hid : docGet d "_id" = some (PyVal.str s)) :
    ((upsert_book d db).snapshots = db.snapshots ∧
     (upsert_book d db).change_log = db.change_log) ∧
    (findBook db s = Option.none → (upsert_book d db).books = db.books ++ [d]) ∧
    (∀ b, findBook db s = some b →
       findBook (upsert_book d db) s = some (mongoSet b d) ∧
       ∀ k, docGet (mongoSet b d) k = (docGet d k).or (docGet b k)) := by
  refine ⟨?_, ?_, ?_⟩
  · unfold upsert_book
    rw [hid]
    by_cases h : (db.books.find? (fun b => docGet b "_id" = some (PyVal.str s))).isSome
    · simp [h]
    · simp [h]
  · intro hnone
    unfold upsert_book
    rw [hid]
    have h : db.books.find? (fun b => docGet b "_id" = some (PyVal.str s)) =
        Option.none := hnone
    simp [h]
  · intro b hb
    have hfind : db.books.find? (fun b' => docGet b' "_id" = some (PyVal.str s)) =
        some b := hb
    have hbooks : (upsert_book d db).books =
        updateFirst (fun b' => docGet b' "_id" = some (PyVal.str s))
          (fun b' => mongoSet b' d) db.books := by
      unfold upsert_book
      rw [hid]
      simp [hfind]
    constructor
    · show (upsert_book d db).books.find? _ = _
      rw [hbooks]
      apply find?_updateFirst _ _ _ _ hfind
      simp only [mongoSet_docGet, hid]
      simp
    · intro k
      exact mongoSet_docGet b d k

/-- C5 witness: the concrete upsert of the counterexample is found as the
`$set` merge of the stored and incoming documents, and the merge answers
a lookup of the stale field with the stored value. -/
theorem upsert_book_set_merge_semantics_witness :
    findBook (upsert_book cexIncoming
        { books := [cexStored], snapshots := [], change_log := [] }) "b1" =
      some (mongoSet cexStored cexIncoming) ∧
    docGet (mongoSet cexStored cexIncoming) "extra" =
      (docGet cexIncoming "extra").or (docGet cexStored "extra") := by
  have h := (upsert_book_set_merge_semantics cexIncoming
    { books := [cexStored], snapshots := [], change_log := [] } "b1"
    (by decide)).2.2 cexStored (by decide)
  exact ⟨h.1, h.2 "extra"⟩

/-- C3 helper: appending entries only extends the change log. -/
theorem appendEntries_change_log (ts : String) (items : List (String × String))
    (d : DB) :
    (appendEntries ts items d).change_log =
      d.change_log ++ items.map (mkLoggedEntry ts) := by
  induction items generalizing d with
  | nil => simp [appendEntries]
  | cons it its ih =>
    have hstep : appendEntries ts (it :: its) d =
        appendEntries ts its ((log_change_entry it.1 it.2 ts d).2) := rfl
    rw [hstep, ih]
    simp [log_change_entry, mkLoggedEntry]

/-- C3: after `mark_all_changes_as_old` followed by appending K entries
through `log_change_entry`, the change log consists of the prior entries
— every one flagged `old` — followed by exactly the K appended entries,
and the entries flagged `new` are exactly (hence exactly K of them) the
appended ones; with zero appends, no entry is flagged `new`. -/
theorem age_out_then_append_recency (db : DB) (ts : String)
    (items : List (String × String)) :
    ((appendEntries ts items (mark_all_changes_as_old db)).change_log =
       db.change_log.map (fun e => { e with recent := "old" }) ++
         items.map (mkLoggedEntry ts)) ∧
    ((appendEntries ts items (mark_all_changes_as_old db)).change_log.filter
        (fun e => e.recent = "new") = items.map (mkLoggedEntry ts)) ∧
    (((appendEntries ts items (mark_all_changes_as_old db)).change_log.filter
        (fun e => e.recent = "new")).length = items.length) ∧
    (∀ e ∈ db.change_log.map (fun e => { e with recent := "old" }),
       e.recent = "old") := by
  have hlog : (appendEntries ts items (mark_all_changes_as_old db)).change_log =
      db.change_log.map (fun e => { e with recent := "old" }) ++
        items.map (mkLoggedEntry ts) := by
    rw [appendEntries_change_log]
    simp [mark_all_changes_as_old]
  have hfilter : (appendEntries ts items (mark_all_changes_as_old db)).change_log.filter
      (fun e => e.recent = "new") = items.map (mkLoggedEntry ts) := by
    rw [hlog, List.filter_append]
    have h₁ : (db.change_log.map (fun e => { e with recent := "old" })).filter
        (fun e => decide (e.recent = "new")) = [] := by
      apply List.filter_eq_nil_iff.mpr
      intro e he
      rcases List.mem_map.mp he with ⟨e₀, _, rfl⟩
      simp
    have h₂ : (items.map (mkLoggedEntry ts)).filter
        (fun e => decide (e.recent = "new")) = items.map (mkLoggedEntry ts) := by
      apply List.filter_eq_self.mpr
      intro e he
      rcases List.mem_map.mp he with ⟨e₀, _, rfl⟩
      simp [mkLoggedEntry]
    rw [h₁, h₂, List.nil_append]
  refine ⟨hlog, hfilter, ?_, ?_⟩
  · rw [hfilter, List.length_map]
  · intro e he
    rcases List.mem_map.mp he with ⟨e₀, _, rfl⟩
    rfl

/-- C6: with max attempts = 3, a fetch whose every attempt fails raises
the exhaustion error carrying the URL and the attempt count after exactly
3 attempts, while a fetch failing on attempts 0 and 1 and succeeding on
attempt 2 returns the successful content after 3 attempts without
raising. -/
theorem fetch_exhaustion_and_retry_success :
    (∀ (url : String) (f : Nat → Except String String),
       (∀ i, i < 3 → (f i).isOk = false) →
       fetch 3 f url = (Except.error (PyErr.fetchExhausted url 3), 3)) ∧
    (∀ (url content : String) (f : Nat → Except String String),
       (f 0).isOk = false → (f 1).isOk = false → f 2 = Except.ok content →
       fetch 3 f url = (Except.ok content, 3)) := by
  constructor
  · intro url f h
    have h0 := h 0 (by omega)
    have h1 := h 1 (by omega)
    have h2 := h 2 (by omega)
    rcases hf0 : f 0 with e0 | v0
    · rcases hf1 : f 1 with e1 | v1
      · rcases hf2 : f 2 with e2 | v2
        · simp [fetch, fetchLoop, hf0, hf1, hf2]
        · rw [hf2] at h2
          simp [Except.toBool] at h2
      · rw [hf1] at h1
        simp [Except.toBool] at h1
    · rw [hf0] at h0
      simp [Except.toBool] at h0
  · intro url content f h0 h1 h2
    rcases hf0 : f 0 with e0 | v0
    · rcases hf1 : f 1 with e1 | v1
      · simp [fetch, fetchLoop, hf0, hf1, h2]
      · rw [hf1] at h1
        simp [Except.toBool] at h1
    · rw [hf0] at h0
      simp [Except.toBool] at h0

/-- C6 witness: a concrete always-failing attempt oracle exhausts after 3
attempts; a concrete fail-fail-succeed oracle returns the content after 3
attempts. -/
theorem fetch_exhaustion_and_retry_success_witness :
    fetch 3 (fun _ => Except.error "boom") "http://s/x" =
      (Except.error (PyErr.fetchExhausted "http://s/x" 3), 3) ∧
    fetch 3 (fun i => if i = 2 then Except.ok "content" else Except.error "boom")
        "http://s/x" =
      (Except.ok "content", 3) := by
  constructor
  · exact fetch_exhaustion_and_retry_success.1 "http://s/x" _ (fun i _ => rfl)
  · exact fetch_exhaustion_and_retry_success.2 "http://s/x" "content" _ rfl rfl rfl

/-- C3 witness: a concrete run of age-out followed by two appends leaves
exactly the two appended entries flagged `new`. -/
theorem age_out_then_append_recency_witness :
    (appendEntries "T1" [("b1", "new"), ("b2", "updated")]
        (mark_all_changes_as_old
          { books := [], snapshots := [],
            change_log := [{ book_id := "b0", change_type := "new",
                             recent := "new", timestamp := "T0",
                             field_changes := Option.none }] })).change_log.filter
      (fun e => e.recent = "new") =
      [mkLoggedEntry "T1" ("b1", "new"), mkLoggedEntry "T1" ("b2", "updated")] := by
  have h := (age_out_then_append_recency
    { books := [], snapshots := [],
      change_log := [{ book_id := "b0", change_type := "new", recent := "new",
                       timestamp := "T0", field_changes := Option.none }] }
    "T1" [("b1", "new"), ("b2", "updated")]).2.1
  simpa using h

/-- C7 helper: the fold of `dedupFirstSeen` appends exactly the URLs the
accumulator has not seen, in order. -/
theorem foldl_dedup_eq_append (l : List String) :
    ∀ acc : List String,
      l.foldl (fun uniq u => if u ∈ uniq then uniq else uniq ++ [u]) acc =
        acc ++ dedupFrom acc l := by
  induction l with
  | nil => intro acc; simp [dedupFrom]
  | cons u us ih =>
    intro acc
    by_cases hu : u ∈ acc
    · simp only [List.foldl_cons, if_pos hu, dedupFrom, ih]
    · simp only [List.foldl_cons, if_neg hu, dedupFrom, ih (acc ++ [u])]
      simp

/-- C7 helper: relative to a seen-set `acc`, the fold keeps the first
occurrence of each unseen URL. -/
theorem dedupFrom_eq_specDedup_filter (n : Nat) :
    ∀ l : List String, l.length ≤ n → ∀ acc : List String,
      dedupFrom acc l = specDedup (l.filter (fun v => v ∉ acc)) := by
  induction n with
  | zero =>
    intro l hl acc
    rw [List.length_eq_zero.mp (Nat.le_zero.mp hl)]
    simp [dedupFrom, specDedup]
  | succ n ih =>
    intro l hl acc
    cases l with
    | nil => simp [dedupFrom, specDedup]
    | cons u us =>
      by_cases hu : u ∈ acc
      · have h₁ : dedupFrom acc (u :: us) = dedupFrom acc us := by
          simp [dedupFrom, hu]
        have h₂ : (u :: us).filter (fun v => v ∉ acc) =
            us.filter (fun v => v ∉ acc) := by
          simp [List.filter_cons, hu]
        rw [h₁, h₂, ih us (by simpa using Nat.le_of_succ_le_succ hl) acc]
      · have h₁ : dedupFrom acc (u :: us) = u :: dedupFrom (acc ++ [u]) us := by
          simp [dedupFrom, hu]
        have h₂ : (u :: us).filter (fun v => v ∉ acc) =
            u :: us.filter (fun v => v ∉ acc) := by
          simp [List.filter_cons, hu]
        rw [h₁, h₂]
        rw [specDedup]
        congr 1
        rw [ih us (by simpa using Nat.le_of_succ_le_succ hl) (acc ++ [u])]
        congr 1
        rw [List.filter_filter]
        apply List.filter_congr
        intro v _
        by_cases hv : v = u
        · subst hv
          simp
        · by_cases hva : v ∈ acc <;> simp [hv, hva]

/-- C7 helper: `specDedup` keeps exactly the input's URLs, without
duplicates, in input order. -/
theorem specDedup_props (n : Nat) :
    ∀ l : List String, l.length ≤ n →
      ((∀ v, v ∈ specDedup l ↔ v ∈ l) ∧ (specDedup l).Nodup ∧
        List.Sublist (specDedup l) l) := by
  induction n with
  | zero =>
    intro l hl
    rw [List.length_eq_zero.mp (Nat.le_zero.mp hl)]
    simp [specDedup]
  | succ n ih =>
    intro l hl
    cases l with
    | nil => simp [specDedup]
    | cons u us =>
      have hlen : (us.filter (fun v => v ≠ u)).length ≤ n :=
        le_trans (List.length_filter_le _ _) (by simpa using Nat.le_of_succ_le_succ hl)
      obtain ⟨ihmem, ihnodup, ihsub⟩ := ih _ hlen
      rw [specDedup]
      refine ⟨?_, ?_, ?_⟩
      · intro v
        rw [List.mem_cons, ihmem, List.mem_filter]
        by_cases hv : v = u
        · subst hv; simp
        · simp [hv]
      · rw [List.nodup_cons]
        refine ⟨?_, ihnodup⟩
        intro hmem
        have := List.mem_filter.mp ((ihmem u).mp hmem)
        simp at this
      · exact List.Sublist.cons₂ u (ihsub.trans (List.filter_sublist us))

/-- C7: link discovery returns the discovered URLs deduplicated while
preserving first-seen order — the result keeps exactly the first
occurrence of each URL (it equals the spec-side first-occurrence dedup,
is duplicate-free, has the same members, and is a sublist of the raw
discovery sequence) — and over the two-page fixture (page 1 with two
items and a next link, page 2 with one item and none) it returns exactly
`item-1`, `item-2`, `item-3` in discovery order. -/
theorem link_discovery_dedup_and_fixture :
    (∀ links : List String,
       dedupFirstSeen links = specDedup links ∧
       (dedupFirstSeen links).Nodup ∧
       (∀ u, u ∈ dedupFirstSeen links ↔ u ∈ links) ∧
       List.Sublist (dedupFirstSeen links) links) ∧
    get_all_book_links fixtureJoin fixtureSite 5 "http://s" =
      ["item-1", "item-2", "item-3"] := by
  constructor
  · intro links
    have heq : dedupFirstSeen links = specDedup links := by
      unfold dedupFirstSeen
      rw [foldl_dedup_eq_append links [],
        dedupFrom_eq_specDedup_filter links.length links le_rfl []]
      simp
    obtain ⟨hmem, hnodup, hsub⟩ := specDedup_props links.length links le_rfl
    exact ⟨heq, heq ▸ hnodup, fun u => heq ▸ hmem u, heq ▸ hsub⟩
  · decide

/-- C7 witness: a raw link sequence with a URL discovered on two pages
keeps only its first occurrence. -/
theorem link_discovery_dedup_and_fixture_witness :
    dedupFirstSeen ["a", "b", "a", "c"] = specDedup ["a", "b", "a", "c"] ∧
    List.Sublist (dedupFirstSeen ["a", "b", "a", "c"]) ["a", "b", "a", "c"] := by
  have h := link_discovery_dedup_and_fixture.1 ["a", "b", "a", "c"]
  exact ⟨h.1, h.2.2.2⟩

/-- C8: when the stored record is present and its stored fingerprint is
Python-equal to the new record's (`Unchanged` outcome), processing the
item performs no write at all: the returned change entry is `None` and
the database — books, snapshots and change log alike — is exactly the
input database. -/
theorem process_book_unchanged_performs_no_writes (bd : BookData)
    (url html ts : String) (db : DB) (ex : Doc)
    (hfind : findBook db bd._id = some ex)
    (hhash : pyEq (docGetD ex "content_hash" PyVal.none)
      (PyVal.str bd.content_hash) = true) :
    process_book (Except.ok (bd, html)) url ts db = (Option.none, db) := by
  show process_book_ok bd url html ts db = (Option.none, db)
  unfold process_book_ok
  rw [hfind]
  simp [hhash]

/-- C8 witness: processing `demoBook` against a database already storing
its own dictionary (matching fingerprint) changes nothing. -/
theorem process_book_unchanged_performs_no_writes_witness :
    process_book (Except.ok (demoBook, "<html>"))
        "http://x/catalogue/b1/index.html" "T1"
        { books := [BookData.toDoc demoBook], snapshots := [], change_log := [] } =
      (Option.none,
        { books := [BookData.toDoc demoBook], snapshots := [], change_log := [] }) :=
  process_book_unchanged_performs_no_writes demoBook
    "http://x/catalogue/b1/index.html" "<html>" "T1"
    { books := [BookData.toDoc demoBook], snapshots := [], change_log := [] }
    (BookData.toDoc demoBook) (by decide) (by decide)

/-- C9 helper: a change entry actually produced by the post-parse stage
is an `updated` or a `new` entry. -/
theorem process_book_ok_change_type (bd : BookData) (url html ts : String)
    (db : DB) (c : ChangeEntry)
    (h : (process_book_ok bd url html ts db).1 = some c) :
    c.change_type = "updated" ∨ c.change_type = "new" := by
  unfold process_book_ok at h
  cases hfind : findBook db bd._id with
  | some ex =>
    rw [hfind] at h
    dsimp only at h
    by_cases hhash : pyEq (docGetD ex "content_hash" PyVal.none)
        (PyVal.str bd.content_hash) = true
    · simp [hhash] at h
    · rw [if_neg hhash] at h
      dsimp only at h
      obtain rfl := Option.some.inj h
      exact Or.inl rfl
  | none =>
    rw [hfind] at h
    dsimp only [log_change_entry] at h
    obtain rfl := Option.some.inj h
    exact Or.inr rfl

/-- C9 helper: every entry in the gathered results comes from an item
whose fetch + parse pipeline succeeded and whose outcome was `updated` or
`new`. -/
theorem run_results_change_provenance
    (item : String → Except PyErr (BookData × String)) (ts : String) :
    ∀ (urls : List String) (d : DB) (c : ChangeEntry),
      c ∈ ((run_results item ts urls d).1).filterMap id →
      ∃ u ∈ urls, (item u).isOk = true ∧
        (c.change_type = "updated" ∨ c.change_type = "new") := by
  intro urls
  induction urls with
  | nil => intro d c hc; simp [run_results] at hc
  | cons u us ih =>
    intro d c hc
    have hshape : (run_results item ts (u :: us) d).1 =
        (process_book (item u) u ts d).1 ::
          (run_results item ts us (process_book (item u) u ts d).2).1 := rfl
    rw [hshape] at hc
    cases hr : (process_book (item u) u ts d).1 with
    | none =>
      rw [hr] at hc
      simp only [List.filterMap_cons, id] at hc
      rcases ih _ c hc with ⟨w, hw, hok, hty⟩
      exact ⟨w, List.mem_cons_of_mem u hw, hok, hty⟩
    | some c0 =>
      rw [hr] at hc
      simp only [List.filterMap_cons, id] at hc
      rcases List.mem_cons.mp hc with rfl | htail
      · cases hitem : item u with
        | error e =>
          rw [hitem] at hr
          simp [process_book] at hr
        | ok bdpair =>
          rw [hitem] at hr
          have hr' : (process_book_ok bdpair.1 u bdpair.2 ts d).1 = some c := hr
          exact ⟨u, List.mem_cons_self u us, by rw [hitem]; rfl,
            process_book_ok_change_type bdpair.1 u bdpair.2 ts d c hr'⟩
      · rcases ih _ c htail with ⟨w, hw, hok, hty⟩
        exact ⟨w, List.mem_cons_of_mem u hw, hok, hty⟩

/-- C9: a per-item pipeline failure is absorbed at the item boundary —
the item yields a `None` result and leaves the database as it was — the
run itself is a total function that returns the in-place filtered list of
non-`None` results, and every change entry the run returns stems from an
item whose pipeline succeeded with an `updated` or `new` outcome. -/
theorem per_item_failure_yields_null_and_run_survives
    (item : String → Except PyErr (BookData × String)) (ts : String)
    (urls : List String) (db : DB) :
    (∀ u e d, item u = Except.error e →
       process_book (item u) u ts d = (Option.none, d)) ∧
    ((run item ts urls db).1 =
       ((run_results item ts urls (mark_all_changes_as_old db)).1).filterMap id) ∧
    (∀ c ∈ (run item ts urls db).1,
       ∃ u ∈ urls, (item u).isOk = true ∧
         (c.change_type = "updated" ∨ c.change_type = "new")) := by
  refine ⟨?_, rfl, ?_⟩
  · intro u e d h
    rw [h]
    rfl
  · intro c hc
    exact run_results_change_provenance item ts urls (mark_all_changes_as_old db) c hc

/-- C9 witness: over one failing URL and one succeeding URL, the failing
item yields `None` and the run's change list holds only the succeeding
item's entry. -/
theorem per_item_failure_yields_null_and_run_survives_witness :
    process_book ((fun u => if u = "bad" then Except.error PyErr.attributeError
        else simpleItem u) "bad") "bad" "T"
      { books := [], snapshots := [], change_log := [] } =
      (Option.none, { books := [], snapshots := [], change_log := [] }) ∧
    ∀ c ∈ (run (fun u => if u = "bad" then Except.error PyErr.attributeError
        else simpleItem u) "T" ["bad", "good"]
        { books := [], snapshots := [], change_log := [] }).1,
      ∃ u ∈ ["bad", "good"],
        ((fun u => if u = "bad" then Except.error PyErr.attributeError
            else simpleItem u) u).isOk = true ∧
        (c.change_type = "updated" ∨ c.change_type = "new") := by
  have h := per_item_failure_yields_null_and_run_survives
    (fun u => if u = "bad" then Except.error PyErr.attributeError else simpleItem u)
    "T" ["bad", "good"] { books := [], snapshots := [], change_log := [] }
  exact ⟨h.1 "bad" PyErr.attributeError
    { books := [], snapshots := [], change_log := [] } (by rfl), h.2.2⟩

/-- C10 helper: gathering distributes over concatenation of the URL
list, threading the shared database through in submission order. -/
theorem run_results_append (item : String → Except PyErr (BookData × String))
    (ts : String) :
    ∀ (as bs : List String) (d : DB),
      (run_results item ts (as ++ bs) d).1 =
        (run_results item ts as d).1 ++
          (run_results item ts bs (run_results item ts as d).2).1 ∧
      (run_results item ts (as ++ bs) d).2 =
        (run_results item ts bs (run_results item ts as d).2).2 := by
  intro as
  induction as with
  | nil => intro bs d; exact ⟨rfl, rfl⟩
  | cons a as ih =>
    intro bs d
    constructor
    · show (process_book (item a) a ts d).1 ::
          (run_results item ts (as ++ bs) (process_book (item a) a ts d).2).1 = _
      rw [(ih bs (process_book (item a) a ts d).2).1]
      rfl
    · show (run_results item ts (as ++ bs) (process_book (item a) a ts d).2).2 = _
      rw [(ih bs (process_book (item a) a ts d).2).2]
      rfl

/-- C10: the change list returned by `run` is ordered consistently with
link-discovery order: the per-item results are gathered in task-submission
order (the order of the URL list) and the `None` results are filtered in
place, so two items that both produce a change entry appear in the
returned list in the same relative order as their URLs in the discovered
link list. -/
theorem run_changes_preserve_discovery_order
    (item : String → Except PyErr (BookData × String)) (ts : String) (db : DB)
    (us₁ us₂ us₃ : List String) (u v : String) (cu cv : ChangeEntry)
    (hu : (process_book (item u) u ts
        (run_results item ts us₁ (mark_all_changes_as_old db)).2).1 = some cu)
    (hv : (process_book (item v) v ts
        (run_results item ts us₂
          (process_book (item u) u ts
            (run_results item ts us₁ (mark_all_changes_as_old db)).2).2).2).1 =
      some cv) :
    ∃ m₁ m₂ m₃, (run item ts (us₁ ++ u :: us₂ ++ v :: us₃) db).1 =
      m₁ ++ cu :: m₂ ++ cv :: m₃ := by
  have hrun : (run item ts (us₁ ++ u :: us₂ ++ v :: us₃) db).1 =
      ((run_results item ts (us₁ ++ u :: us₂ ++ v :: us₃)
        (mark_all_changes_as_old db)).1).filterMap id := rfl
  have h1 := (run_results_append item ts (us₁ ++ u :: us₂) (v :: us₃)
    (mark_all_changes_as_old db)).1
  have h2 := (run_results_append item ts us₁ (u :: us₂)
    (mark_all_changes_as_old db)).1
  have h3 := (run_results_append item ts us₁ (u :: us₂)
    (mark_all_changes_as_old db)).2
  have hcons1 : (run_results item ts (u :: us₂)
      (run_results item ts us₁ (mark_all_changes_as_old db)).2).1 =
      (process_book (item u) u ts
        (run_results item ts us₁ (mark_all_changes_as_old db)).2).1 ::
      (run_results item ts us₂
        (process_book (item u) u ts
          (run_results item ts us₁ (mark_all_changes_as_old db)).2).2).1 := rfl
  have hsnd : (run_results item ts (u :: us₂)
      (run_results item ts us₁ (mark_all_changes_as_old db)).2).2 =
      (run_results item ts us₂
        (process_book (item u) u ts
          (run_results item ts us₁ (mark_all_changes_as_old db)).2).2).2 := rfl
  have hcons2 : (run_results item ts (v :: us₃)
      (run_results item ts us₂
        (process_book (item u) u ts
          (run_results item ts us₁ (mark_all_changes_as_old db)).2).2).2).1 =
      (process_book (item v) v ts
        (run_results item ts us₂
          (process_book (item u) u ts
            (run_results item ts us₁ (mark_all_changes_as_old db)).2).2).2).1 ::
      (run_results item ts us₃
        (process_book (item v) v ts
          (run_results item ts us₂
            (process_book (item u) u ts
              (run_results item ts us₁
                (mark_all_changes_as_old db)).2).2).2).2).1 := rfl
  refine ⟨((run_results item ts us₁ (mark_all_changes_as_old db)).1).filterMap id,
    ((run_results item ts us₂
      (process_book (item u) u ts
        (run_results item ts us₁ (mark_all_changes_as_old db)).2).2).1).filterMap id,
    ((run_results item ts us₃
      (process_book (item v) v ts
        (run_results item ts us₂
          (process_book (item u) u ts
            (run_results item ts us₁
              (mark_all_changes_as_old db)).2).2).2).2).1).filterMap id, ?_⟩
  rw [hrun, h1, h2, h3, hcons1, hsnd, hcons2, hu, hv]
  simp [List.filterMap_append, List.filterMap_cons]

/-- C10 witness: two fresh items submitted as `["a", "b"]` produce their
`new` entries in that order. -/
theorem run_changes_preserve_discovery_order_witness :
    ∃ m₁ m₂ m₃,
      (run simpleItem "T" (([] : List String) ++ "a" :: ([] : List String) ++
          "b" :: ([] : List String))
        { books := [], snapshots := [], change_log := [] }).1 =
      m₁ ++ ({ book_id := "a", change_type := "new", recent := "new",
               timestamp := "T", field_changes := Option.none } : ChangeEntry) ::
        m₂ ++ ({ book_id := "b", change_type := "new", recent := "new",
                 timestamp := "T", field_changes := Option.none } : ChangeEntry) ::
          m₃ :=
  run_changes_preserve_discovery_order simpleItem "T"
    { books := [], snapshots := [], change_log := [] } [] [] [] "a" "b"
    { book_id := "a", change_type := "new", recent := "new", timestamp := "T",
      field_changes := Option.none }
    { book_id := "b", change_type := "new", recent := "new", timestamp := "T",
      field_changes := Option.none }
    (by decide) (by decide)

/-- C4 helper: the attribute-table build of lines 229‑233 raises iff some
row lacks its `th` or `td` cell. -/
theorem buildTable_isOk_false_iff (rows : List TableRow) :
    (buildTable rows).isOk = false ↔
      ∃ r ∈ rows, r.th = Option.none ∨ r.td = Option.none := by
  induction rows with
  | nil => simp [buildTable, Except.isOk, Except.toBool]
  | cons r rs ih =>
    obtain ⟨th?, td?⟩ := r
    cases th? with
    | none =>
      constructor
      · intro _
        exact ⟨⟨Option.none, td?⟩, List.mem_cons_self _ _, Or.inl rfl⟩
      · intro _
        rfl
    | some th =>
      cases td? with
      | none =>
        constructor
        · intro _
          exact ⟨⟨some th, Option.none⟩, List.mem_cons_self _ _, Or.inr rfl⟩
        · intro _
          rfl
      | some td =>
        have hstep : buildTable (⟨some th, some td⟩ :: rs) =
            (buildTable rs).map (fun t => (th, td) :: t) := rfl
        rw [hstep]
        cases hbt : buildTable rs with
        | error e =>
          have hex := ih.mp (by rw [hbt]; rfl)
          rcases hex with ⟨r, hr, hcase⟩
          constructor
          · intro _
            exact ⟨r, List.mem_cons_of_mem _ hr, hcase⟩
          · intro _
            rfl
        | ok t =>
          constructor
          · intro h
            simp [Except.map, Except.isOk, Except.toBool] at h
          · rintro ⟨r, hr, hcase⟩
            rcases List.mem_cons.mp hr with rfl | hr'
            · rcases hcase with h | h <;> simp at h
            · have := ih.mpr ⟨r, hr', hcase⟩
              rw [hbt] at this
              simp [Except.isOk, Except.toBool] at this

/-- C4 counterexample: a page lacking the `.product_page` title container
entirely does not raise — `parse_book` succeeds and produces a record
with a `None` title — refuting "fails with MalformedPageError if and only
if the page lacks the mandatory title container", whose "if" direction
demands a raise here. -/
theorem parse_book_missing_title_container_counterexample :
    titlelessPage.product_page = Option.none ∧
    parse_book id fixtureJoin pyInt? titlelessPage "<html>"
        "http://x/cat/b1/index.html" "T0" =
      Except.ok (titlelessResult "http://x/cat/b1/index.html" "T0" "b1",
        "<html>") :=
  ⟨rfl, rfl⟩

/-- C4 (amended): parsing never fails on missing optional fields
(description, category, prices, availability, image, rating may all be
absent — a present image without `src` yields the page URL via
`urljoin(url, None)`, not an error); for a URL whose id derivation
succeeds, it raises if and only if the product container is present
without its `h1` title, or a table row lacks a cell, or `int()` rejects
the review-count value; in particular a page lacking the title container
entirely parses successfully (the counterexample), and whenever parsing
does fail the item produces no record, no snapshot and no change entry —
`process_book` returns `None` and leaves the database untouched. -/
theorem parse_book_failure_iff (hash : String → String)
    (join : String → String → String) (pyIntOf : String → Option Int)
    (page : PageModel) (html url ts : String)
    (bid : String) (hid : bookIdOf url = Except.ok bid) :
    ((parse_book hash join pyIntOf page html url ts).isOk = false ↔
       (page.product_page = some Option.none ∨
        (∃ r ∈ page.rows, r.th = Option.none ∨ r.td = Option.none) ∨
        (∃ t, buildTable page.rows = Except.ok t ∧
           pyIntOf ((tableGet t "Number of reviews").getD "0") = Option.none))) ∧
    (∀ db, (parse_book hash join pyIntOf page html url ts).isOk = false →
       process_book (parse_book hash join pyIntOf page html url ts) url ts db =
         (Option.none, db)) := by
  constructor
  · cases ht : titleOf page with
    | error e =>
      have hp : parse_book hash join pyIntOf page html url ts =
          Except.error e := by
        unfold parse_book
        rw [ht]
      have hpp : page.product_page = some Option.none := by
        rcases hpage : page.product_page with _ | op
        · unfold titleOf at ht
          rw [hpage] at ht
          simp at ht
        · rcases op with _ | t
          · rfl
          · unfold titleOf at ht
            rw [hpage] at ht
            simp at ht
      exact ⟨fun _ => Or.inl hpp, fun _ => by rw [hp]; rfl⟩
    | ok title =>
      cases hbt : buildTable page.rows with
      | error e =>
        have hp : parse_book hash join pyIntOf page html url ts =
            Except.error e := by
          unfold parse_book
          simp only [ht, hbt]
        have hrow := buildTable_isOk_false_iff page.rows |>.mp (by rw [hbt]; rfl)
        exact ⟨fun _ => Or.inr (Or.inl hrow), fun _ => by rw [hp]; rfl⟩
      | ok t =>
        cases hint : pyIntOf ((tableGet t "Number of reviews").getD "0") with
        | none =>
          have hp : parse_book hash join pyIntOf page html url ts =
              Except.error PyErr.valueError := by
            unfold parse_book
            simp only [ht, hbt, hint]
          exact ⟨fun _ => Or.inr (Or.inr ⟨t, rfl, hint⟩),
            fun _ => by rw [hp]; rfl⟩
        | some n =>
          have hok : (parse_book hash join pyIntOf page html url ts).isOk =
              true := by
            unfold parse_book
            simp only [ht, hbt, hint, hid]
            rfl
          constructor
          · intro hfail
            rw [hok] at hfail
            exact absurd hfail (by simp)
          · intro hor
            exfalso
            rcases hor with h1 | h2 | h3
            · unfold titleOf at ht
              rw [h1] at ht
              simp at ht
            · have hthis := buildTable_isOk_false_iff page.rows |>.mpr h2
              rw [hbt] at hthis
              exact absurd hthis (by simp [Except.isOk, Except.toBool])
            · rcases h3 with ⟨t2, hbt2, hint2⟩
              obtain rfl := Except.ok.inj hbt2
              rw [hint] at hint2
              exact absurd hint2 (by simp)
  · intro db hfail
    cases hparse : parse_book hash join pyIntOf page html url ts with
    | error e => rfl
    | ok v =>
      rw [hparse] at hfail
      exact absurd hfail (by simp [Except.isOk, Except.toBool])

/-- C4 witness: a page whose product container is present but has no
`h1` does fail, and processing it writes nothing. -/
theorem parse_book_failure_iff_witness :
    (parse_book id fixtureJoin pyInt? headlessProductPage "<html>"
        "http://x/cat/b1/index.html" "T0").isOk = false ∧
    process_book (parse_book id fixtureJoin pyInt? headlessProductPage "<html>"
        "http://x/cat/b1/index.html" "T0") "http://x/cat/b1/index.html" "T0"
      { books := [], snapshots := [], change_log := [] } =
      (Option.none, { books := [], snapshots := [], change_log := [] }) := by
  have h := parse_book_failure_iff id fixtureJoin pyInt? headlessProductPage
    "<html>" "http://x/cat/b1/index.html" "T0" "b1" (by rfl)
  have hfail := h.1.mpr (Or.inl rfl)
  exact ⟨hfail, h.2 { books := [], snapshots := [], change_log := [] } hfail⟩
